import Mathlib

/-!
Shallow embedding of the repo-rs repository (src/repo.rs, src/config.rs,
src/error.rs, src/main.rs, src/cli.rs).

Strings stand for Rust String values; byte vectors (stdout/stderr, file
contents) are List Nat with each entry < 256 understood. The Rust HashMap
of Config is modelled as an association list whose order stands for the
iteration order of the map; HashMap gives no ordering guarantee, so any
list order is a possible iteration order. Effects of libgit2 calls and of
spawned subprocesses are supplied by explicit world records, one field per
primitive the code consults; the embedded functions read exactly the
fields the source code reads.
-/

/-- Captured outcome of one external process invocation, modelling
std::process::Output: status.success() plus raw stdout/stderr bytes. -/
structure Output where
  stdout : List Nat
  stderr : List Nat
  success : Bool
deriving DecidableEq, Repr

/-- Model of struct Repo in src/repo.rs (the serialized descriptor fields;
the runtime Option of the libgit2 Repository handle is modelled by the
repoInit field of the per-run world below). -/
structure Repo where
  key : String
  path : String
  remote : String
  branch : String
deriving DecidableEq, Repr

/-- Model of impl PartialEq for Repo in src/repo.rs: two repos are equal
when the keys match OR the paths match. -/
def Repo.eq (a b : Repo) : Bool :=
  a.key == b.key || a.path == b.path

/-- Model of Config in src/config.rs: the HashMap of key to Repo as an
association list in iteration order. -/
abbrev Config := List (String × Repo)

/-- Model of Config::add: HashMap::insert keyed by candidate.key, replacing
any existing binding for that key. -/
def Config.add (c : Config) (candidate : Repo) : Config :=
  (candidate.key, candidate) :: c.filter (fun p => p.1 ≠ candidate.key)

/-- Model of Config::contains: true when any stored value equals the
candidate under the key-or-path equality of Repo. -/
def Config.contains (c : Config) (candidate : Repo) : Bool :=
  c.any (fun p => Repo.eq p.2 candidate)

/-- Model of Config::remove: HashMap::remove by key, returning whether an
entry was removed, paired with the remaining map. -/
def Config.remove (c : Config) (key : String) : Bool × Config :=
  (c.any (fun p => p.1 == key), c.filter (fun p => p.1 ≠ key))

/-- Ordering used by Config::repos_sorted: compare entries by key,
a.0.cmp(b.0) in the source. Rust String::cmp is byte-wise on the UTF-8
encoding, which coincides with the lexicographic order on the scalar-value
sequences, modelled here as the order on the char lists of the keys. -/
def keyLe (a b : String × Repo) : Prop := a.1.data ≤ b.1.data

instance : DecidableRel keyLe :=
  fun a b => inferInstanceAs (Decidable (a.1.data ≤ b.1.data))

instance : IsTotal (String × Repo) keyLe := ⟨fun a b => le_total a.1.data b.1.data⟩

instance : IsTrans (String × Repo) keyLe := ⟨fun _ _ _ h h' => le_trans h h'⟩

/-- Strict form of keyLe, used to state that listings ascend strictly. -/
def keyLt (a b : String × Repo) : Prop := a.1.data < b.1.data

/-- Model of Config::repos_sorted: collect the entries and sort them by key
(sort_by with a.0.cmp(b.0) is a comparison sort on the key; stability is
irrelevant because HashMap keys are distinct). -/
def Config.repos_sorted (c : Config) : List (String × Repo) :=
  List.insertionSort keyLe c

/-- Names of the git subcommands the update state machine shells out to
through Repo::run (src/repo.rs): stash, stash pop, checkout of a branch,
and pull with rebase. -/
inductive GitCmd where
  | stash
  | stashPop
  | checkout (branch : String)
  | rebase
deriving DecidableEq, Repr

/-- Model of RepoRsError in src/error.rs, plus UninitializedRepoObject which
src/repo.rs constructs. The wrapped foreign errors (git2, io, serde_json,
github, env) carry no repository key; their payloads are irrelevant to the
claims and are dropped. -/
inductive RepoRsError where
  | BranchUnknown (key : String)
  | CommandFailed (key : String) (cmd : GitCmd) (output : Output)
  | NoRemotes (key : String)
  | NoRepo (key : String)
  | OperationsInProgress (key : String)
  | RepoDirty (key : String)
  | UninitializedRepoObject (key : String)
  | GitError
  | IOError
  | JsonError
deriving DecidableEq, Repr

/-- Repository key carried by an error, reading off the payloads of the
variants of RepoRsError in src/error.rs; the wrapped foreign errors carry
none. -/
def RepoRsError.errKey : RepoRsError → Option String
  | .BranchUnknown k => some k
  | .CommandFailed k _ _ => some k
  | .NoRemotes k => some k
  | .NoRepo k => some k
  | .OperationsInProgress k => some k
  | .RepoDirty k => some k
  | .UninitializedRepoObject k => some k
  | .GitError => none
  | .IOError => none
  | .JsonError => none

/-- Whether an error is a wrapped foreign error (git2 or io), as opposed to
one of the variants src/repo.rs constructs itself. -/
def RepoRsError.isForeign : RepoRsError → Bool
  | .GitError => true
  | .IOError => true
  | .JsonError => true
  | _ => false

/-- Outcome of running one external process: cmd.output() in Repo::run can
itself fail with an io error, or the process runs and yields an Output. -/
inductive RunOutcome where
  | ioErr
  | ran (out : Output)
deriving DecidableEq, Repr

/-- A RunOutcome that produced a zero exit status. -/
def RunOutcome.succeeded : RunOutcome → Bool
  | .ioErr => false
  | .ran out => out.success

/-- Per-run world for one repository: the answer each libgit2 call or
subprocess of src/repo.rs would give during this run. repoInit models
whether the Option of the Repository handle is Some; stateClean whether
repo.state() is RepositoryState::Clean; indexOk whether repo.index()
succeeds; diffDeltas is some count of deltas when diff_index_to_workdir
succeeds and none when it returns Err; headBranch is the result of
repo.head() followed by shorthand() (Except.error for a git error, ok none
for a nameless HEAD); the remaining fields give the outcome of each git
subcommand the machine may spawn. -/
structure GitWorld where
  stateClean : Bool
  repoInit : Bool
  indexOk : Bool
  diffDeltas : Option Nat
  headBranch : Except Unit (Option String)
  stashRun : RunOutcome
  checkoutRun : String → RunOutcome
  rebaseRun : RunOutcome
  stashPopRun : RunOutcome

/-- Model of Repo::repository in src/repo.rs: the stored handle, or
UninitializedRepoObject when it was never initialized. -/
def Repo.repository (r : Repo) (w : GitWorld) : Except RepoRsError Unit :=
  if w.repoInit then Except.ok () else Except.error (.UninitializedRepoObject r.key)

/-- Model of Repo::validate_working_state: Ok when repo.state() is Clean,
OperationsInProgress otherwise. -/
def Repo.validate_working_state (r : Repo) (w : GitWorld) : Except RepoRsError Unit :=
  match r.repository w with
  | .error e => .error e
  | .ok _ =>
    if w.stateClean then .ok () else .error (.OperationsInProgress r.key)

/-- Model of Repo::is_dirty: dirty when the index-to-workdir diff has a
nonzero delta count; a failure of the diff itself is swallowed by
unwrap_or(false), while failures of repository() or index() propagate. -/
def Repo.is_dirty (r : Repo) (w : GitWorld) : Except RepoRsError Bool :=
  match r.repository w with
  | .error e => .error e
  | .ok _ =>
    if w.indexOk then
      .ok (match w.diffDeltas with
           | some n => decide (n ≠ 0)
           | none => false)
    else .error .GitError

/-- Model of Repo::current_branch: head().shorthand(), with BranchUnknown
when the shorthand is absent and a propagated git error when head() fails. -/
def Repo.current_branch (r : Repo) (w : GitWorld) : Except RepoRsError String :=
  match r.repository w with
  | .error e => .error e
  | .ok _ =>
    match w.headBranch with
    | .error _ => .error .GitError
    | .ok none => .error (.BranchUnknown r.key)
    | .ok (some b) => .ok b

/-- World field holding the outcome of a given git subcommand. -/
def GitWorld.outcomeFor (w : GitWorld) : GitCmd → RunOutcome
  | .stash => w.stashRun
  | .stashPop => w.stashPopRun
  | .checkout b => w.checkoutRun b
  | .rebase => w.rebaseRun

/-- Model of Repo::run specialized to the git subcommands of the update
machine: spawning can fail with an io error, and a nonzero exit status
becomes CommandFailed carrying the key. The returned list is the trace of
subcommands issued (the spawn attempt itself). -/
def Repo.runGit (r : Repo) (w : GitWorld) (cmd : GitCmd) :
    Except RepoRsError Output × List GitCmd :=
  match w.outcomeFor cmd with
  | .ioErr => (.error .IOError, [cmd])
  | .ran out =>
    if out.success then (.ok out, [cmd])
    else (.error (.CommandFailed r.key cmd out), [cmd])

/-- Run one git subcommand for its side effect, as the statements
self.stash()?, self.checkout(..)? and self.stash_pop()? of src/repo.rs do:
the captured output is dropped, the error and the trace are kept. -/
def Repo.stepRun (r : Repo) (w : GitWorld) (cmd : GitCmd) :
    Except RepoRsError Unit × List GitCmd :=
  match r.runGit w cmd with
  | (.error e, t) => (.error e, t)
  | (.ok _, t) => (.ok (), t)

/-- Model of Repo::update_repo in src/repo.rs, returning the result
together with the trace of git subcommands issued, in order: validate the
working state, compute dirtiness, stash if dirty (failing with RepoDirty
when stashing is not allowed), read the current branch, check out the
target branch when it differs, pull with rebase, check the original branch
back out when a switch happened, and pop the stash when one was made. -/
def Repo.update_repo (r : Repo) (w : GitWorld) (allow_stash : Bool) :
    Except RepoRsError Output × List GitCmd :=
  match r.validate_working_state w with
  | .error e => (.error e, [])
  | .ok _ =>
    match r.is_dirty w with
    | .error e => (.error e, [])
    | .ok dirty =>
      match (if dirty then
               if allow_stash then r.stepRun w .stash
               else (.error (.RepoDirty r.key), [])
             else (.ok (), [])) with
      | (.error e, t) => (.error e, t)
      | (.ok _, t0) =>
        match r.current_branch w with
        | .error e => (.error e, t0)
        | .ok original_branch =>
          match (if r.branch ≠ original_branch then r.stepRun w (.checkout r.branch)
                 else (.ok (), [])) with
          | (.error e, t) => (.error e, t0 ++ t)
          | (.ok _, t1) =>
            match r.runGit w .rebase with
            | (.error e, t) => (.error e, t0 ++ t1 ++ t)
            | (.ok output, t2) =>
              match (if r.branch ≠ original_branch then
                       r.stepRun w (.checkout original_branch)
                     else (.ok (), [])) with
              | (.error e, t) => (.error e, t0 ++ t1 ++ t2 ++ t)
              | (.ok _, t3) =>
                match (if dirty && allow_stash then r.stepRun w .stashPop
                       else (.ok (), [])) with
                | (.error e, t) => (.error e, t0 ++ t1 ++ t2 ++ t3 ++ t)
                | (.ok _, t4) => (.ok output, t0 ++ t1 ++ t2 ++ t3 ++ t4)

instance {e a : Type} [DecidableEq e] [DecidableEq a] : DecidableEq (Except e a) := fun x y =>
  match x, y with
  | .ok v, .ok v2 => if h : v = v2 then isTrue (by rw [h]) else isFalse (by simp [h])
  | .error v, .error v2 => if h : v = v2 then isTrue (by rw [h]) else isFalse (by simp [h])
  | .ok _, .error _ => isFalse (by simp)
  | .error _, .ok _ => isFalse (by simp)

/-- Model of struct RepoBuilder in src/repo.rs. -/
structure RepoBuilder where
  key : Option String
  path : String
  remote : Option String
  branch : String

/-- Model of RepoBuilder::new: no key, no remote, and the literal string
master as the initial branch. -/
def RepoBuilder.new (path : String) : RepoBuilder :=
  ⟨none, path, none, "master"⟩

/-- Model of RepoBuilder::key (setter). -/
def RepoBuilder.setKey (b : RepoBuilder) (key : String) : RepoBuilder :=
  { b with key := some key }

/-- Model of RepoBuilder::remote (setter). -/
def RepoBuilder.setRemote (b : RepoBuilder) (remote : String) : RepoBuilder :=
  { b with remote := some remote }

/-- Model of RepoBuilder::branch (setter). -/
def RepoBuilder.setBranch (b : RepoBuilder) (branch : String) : RepoBuilder :=
  { b with branch := branch }

/-- World for one RepoBuilder::build run: whether Repository::discover
succeeds, the workdir of the discovered repository, whether remotes() can
be read and its content, plus two facts about the repository that build
never consults but the spec speaks about: the default branch configured on
the repository and the branch currently checked out. -/
structure BuildWorld where
  discovered : Bool
  workdir : Option String
  remotesOk : Bool
  remotes : List String
  configuredDefaultBranch : String
  currentBranch : String

/-- Split a character sequence on slashes. -/
def splitSlash : List Char → List (List Char)
  | [] => [[]]
  | c :: rest =>
    if c = '/' then [] :: splitSlash rest
    else
      match splitSlash rest with
      | [] => [[c]]
      | p :: ps => (c :: p) :: ps

/-- Last nonempty slash-separated component of a path, modelling
Path::file_name().unwrap() in RepoBuilder::build; the panic on a rootless
path is not modelled because a discovered workdir always has a final
component. -/
def basename (p : String) : String :=
  ⟨((((splitSlash p.data).filter (fun s => s ≠ [])).getLast?).getD [])⟩

/-- Key stored by RepoBuilder::build: the one supplied by the caller, or
the base name of the discovered workdir. -/
def buildKey (b : RepoBuilder) (real_path : String) : String :=
  match b.key with
  | some k => k
  | none => basename real_path

/-- Model of RepoBuilder::build in src/repo.rs: discover the repository
(git error on failure), replace the input path by the discovered workdir
(NoRepo with the input path when the repository is bare), derive the key
from the workdir base name when absent, take the first configured remote
when absent (NoRemotes with the workdir path when there are none), and
assemble the Repo with the branch held by the builder. -/
def RepoBuilder.build (b : RepoBuilder) (w : BuildWorld) : Except RepoRsError Repo :=
  if !w.discovered then .error .GitError
  else
    match w.workdir with
    | none => .error (.NoRepo b.path)
    | some real_path =>
      match b.remote with
      | some r => .ok ⟨buildKey b real_path, real_path, r, b.branch⟩
      | none =>
        if !w.remotesOk then .error .GitError
        else
          match w.remotes.head? with
          | some candidate => .ok ⟨buildKey b real_path, real_path, candidate, b.branch⟩
          | none => .error (.NoRemotes real_path)

/-- Model of the track subcommand flow in src/main.rs together with the
clap defaults of src/cli.rs: the builder starts from the path, key and
remote are set only when supplied, and branch is always set to the
supplied value or to the clap default, the literal master. -/
def track_build (path : String) (keyOpt remoteOpt branchOpt : Option String)
    (w : BuildWorld) : Except RepoRsError Repo :=
  let b0 := RepoBuilder.new path
  let b1 := match keyOpt with
            | some k => b0.setKey k
            | none => b0
  let b2 := match remoteOpt with
            | some r => b1.setRemote r
            | none => b1
  let branch := branchOpt.getD "master"
  (b2.setBranch branch).build w

/-- World for one Config::save run: the outcome of
serde_json::to_vec_pretty (none models a serialization error; some gives
the produced bytes), whether File::create succeeds, and whether write_all
succeeds (none) or fails after writing a given number of bytes (some n). -/
structure SaveWorld where
  serialized : Option (List Nat)
  createOk : Bool
  writeFailAt : Option Nat

/-- Model of Config::save in src/config.rs acting on the destination file:
serialize, create (truncate) the destination, write the bytes in place.
The input and output are the content of the destination file, none when it
does not exist. A serialization or create failure leaves the file as it
was; File::create truncates the file to empty, so a failing write_all
leaves the prefix that was written before the failure. -/
def Config.save (w : SaveWorld) (dest : Option (List Nat)) :
    Except RepoRsError Unit × Option (List Nat) :=
  match w.serialized with
  | none => (.error .JsonError, dest)
  | some json =>
    if !w.createOk then (.error .IOError, dest)
    else
      match w.writeFailAt with
      | none => (.ok (), some json)
      | some n => (.error .IOError, some (json.take n))

/-- Strict UTF-8 validity of a byte sequence, the check performed by Rust
String::from_utf8: ASCII bytes stand alone, leading bytes determine the
number of continuation bytes, overlong encodings, surrogates and values
above 0x10FFFF are rejected. -/
def utf8Cont (b : Nat) : Bool := 0x80 ≤ b && b ≤ 0xBF

def utf8Valid : List Nat → Bool
  | [] => true
  | b :: rest =>
    if b < 0x80 then utf8Valid rest
    else
      match rest with
      | [] => false
      | c1 :: r1 =>
        if 0xC2 ≤ b && b ≤ 0xDF then utf8Cont c1 && utf8Valid r1
        else
          match r1 with
          | [] => false
          | c2 :: r2 =>
            if b = 0xE0 then (0xA0 ≤ c1 && c1 ≤ 0xBF) && utf8Cont c2 && utf8Valid r2
            else if (0xE1 ≤ b && b ≤ 0xEC) || b = 0xEE || b = 0xEF then
              utf8Cont c1 && utf8Cont c2 && utf8Valid r2
            else if b = 0xED then (0x80 ≤ c1 && c1 ≤ 0x9F) && utf8Cont c2 && utf8Valid r2
            else
              match r2 with
              | [] => false
              | c3 :: r3 =>
                if b = 0xF0 then
                  (0x90 ≤ c1 && c1 ≤ 0xBF) && utf8Cont c2 && utf8Cont c3 && utf8Valid r3
                else if 0xF1 ≤ b && b ≤ 0xF3 then
                  utf8Cont c1 && utf8Cont c2 && utf8Cont c3 && utf8Valid r3
                else if b = 0xF4 then
                  (0x80 ≤ c1 && c1 ≤ 0x8F) && utf8Cont c2 && utf8Cont c3 && utf8Valid r3
                else false

/-- Marker for the panic raised by the expect calls in collect_output when
captured bytes are not valid UTF-8. -/
inductive PanicMsg where
  | invalidUtf8
deriving DecidableEq, Repr

/-- Model of collect_output in src/main.rs, on the raw bytes: when both
streams are empty the result is no output block (ok none); otherwise the
header is extended by a newline plus stdout when stdout is nonempty and by
a newline plus stderr when stderr is nonempty, where decoding a nonempty
stream that is not valid UTF-8 panics (the expect call); decoding valid
UTF-8 and re-appending it is the identity on the bytes. -/
def collect_output (header : List Nat) (result : Output) :
    Except PanicMsg (Option (List Nat)) :=
  if !result.stdout.isEmpty || !result.stderr.isEmpty then
    match (if !result.stdout.isEmpty then
             if utf8Valid result.stdout then
               Except.ok (header ++ [10] ++ result.stdout)
             else Except.error PanicMsg.invalidUtf8
           else Except.ok header : Except PanicMsg (List Nat)) with
    | .error e => .error e
    | .ok out1 =>
      if !result.stderr.isEmpty then
        if utf8Valid result.stderr then .ok (some (out1 ++ [10] ++ result.stderr))
        else .error PanicMsg.invalidUtf8
      else .ok (some out1)
  else .ok none

/-- One task spawned by the pull orchestrator in src/main.rs: the closure
captures the entry key (for the success message), the repo, and the
allow_stash flag passed to update_repo. -/
structure PullTask where
  key : String
  repo : Repo
  allowStash : Bool
deriving DecidableEq, Repr

/-- Model of the task list built by pull in src/main.rs: one task per entry
of config.repos, in map iteration order (config.repos.iter() with no
sorting). -/
def pullTasks (c : Config) (allow_stash : Bool) : List PullTask :=
  c.map (fun p => ⟨p.1, p.2, allow_stash⟩)

/-- One task spawned by the status orchestrator in src/main.rs: the closure
captures the key label and the repo, and calls status with require_dirty
equal to the negation of the all flag. -/
structure StatusTask where
  key : String
  repo : Repo
  requireDirty : Bool
deriving DecidableEq, Repr

/-- Model of the task list built by status in src/main.rs: one task per
entry of config.repos, in map iteration order. -/
def statusTasks (c : Config) (all : Bool) : List StatusTask :=
  c.map (fun p => ⟨p.1, p.2, !all⟩)

/-- One task spawned by the run orchestrator in src/main.rs: the closure
captures the key label, the repo, the program and its arguments. -/
structure RunTask where
  key : String
  repo : Repo
  prog : String
  args : List String
deriving DecidableEq, Repr

/-- Model of the task list built by run in src/main.rs: one task per entry
of config.repos, in map iteration order; the program is the head of the
raw command and the arguments are its tail. -/
def runTasks (c : Config) (prog : String) (args : List String) : List RunTask :=
  c.map (fun p => ⟨p.1, p.2, prog, args⟩)

/-- Concrete successful process output used by the concrete scenarios. -/
def okOut : Output := ⟨[111], [], true⟩

/-- Concrete failing process output used by the concrete scenarios. -/
def failOut : Output := ⟨[], [101], false⟩

/-- Concrete repository descriptor tracking branch main under key k. -/
def rK : Repo := ⟨"k", "/p", "origin", "main"⟩

/-- World of a clean repository sitting on the tracked branch where every
git call succeeds. -/
def wClean : GitWorld :=
  ⟨true, true, true, some 0, .ok (some "main"), .ran okOut, fun _ => .ran okOut,
    .ran okOut, .ran okOut⟩

/-- World of a dirty repository (two deltas) sitting on the tracked branch
where every git call succeeds. -/
def wDirty : GitWorld :=
  ⟨true, true, true, some 2, .ok (some "main"), .ran okOut, fun _ => .ran okOut,
    .ran okOut, .ran okOut⟩

/-- World of a clean repository sitting on branch dev whose rebase fails. -/
def wRebaseFail : GitWorld :=
  ⟨true, true, true, some 0, .ok (some "dev"), .ran okOut, fun _ => .ran okOut,
    .ran failOut, .ran okOut⟩

/-- World of a dirty repository on the tracked branch whose stash pop
fails after a successful rebase. -/
def wPopFail : GitWorld :=
  ⟨true, true, true, some 2, .ok (some "main"), .ran okOut, fun _ => .ran okOut,
    .ran okOut, .ran failOut⟩

/-- World of a clean repository whose head lookup fails with a git error. -/
def wHeadFail : GitWorld :=
  ⟨true, true, true, some 0, .error (), .ran okOut, fun _ => .ran okOut,
    .ran okOut, .ran okOut⟩

/-- World of a repository whose index-to-workdir diff itself fails. -/
def wDiffErr : GitWorld :=
  ⟨true, true, true, none, .ok (some "main"), .ran okOut, fun _ => .ran okOut,
    .ran okOut, .ran okOut⟩

/-- Concrete descriptor with key alpha. -/
def repoAlpha : Repo := ⟨"alpha", "/r/alpha", "origin", "master"⟩

/-- Concrete descriptor with key zeta. -/
def repoZeta : Repo := ⟨"zeta", "/r/zeta", "origin", "master"⟩

/-- Registry built by adding alpha then zeta; its map iteration order in
the model lists zeta first. -/
def cfgZA : Config := Config.add (Config.add [] repoAlpha) repoZeta

/-- Save world in which serialization produces three bytes, the create
succeeds, and the write fails before any byte lands. -/
def saveFailWorld : SaveWorld := ⟨some [9, 9, 9], true, some 0⟩

/-- Build world whose repository has configured default branch main and is
currently on branch dev. -/
def wBuildMain : BuildWorld := ⟨true, some "/r/a", true, ["origin"], "main", "dev"⟩
/-- Errors of validate_working_state always carry the repository key. -/
theorem validate_working_state_err (r : Repo) (w : GitWorld) (e : RepoRsError)
    (h : r.validate_working_state w = .error e) : e.errKey = some r.key := by
  unfold Repo.validate_working_state Repo.repository at h
  cases hri : w.repoInit <;> cases hsc : w.stateClean <;>
    simp [hri, hsc] at h <;> simp [← h, RepoRsError.errKey]

/-- Errors of is_dirty are foreign or carry the key. -/
theorem is_dirty_err (r : Repo) (w : GitWorld) (e : RepoRsError)
    (h : r.is_dirty w = .error e) :
    e.isForeign = true ∨ e.errKey = some r.key := by
  unfold Repo.is_dirty Repo.repository at h
  cases hri : w.repoInit <;> cases hx : w.indexOk <;>
    simp [hri, hx] at h <;>
    simp [← h, RepoRsError.errKey, RepoRsError.isForeign]

/-- Errors of current_branch are foreign or carry the key. -/
theorem current_branch_err (r : Repo) (w : GitWorld) (e : RepoRsError)
    (h : r.current_branch w = .error e) :
    e.isForeign = true ∨ e.errKey = some r.key := by
  unfold Repo.current_branch Repo.repository at h
  cases hri : w.repoInit
  · simp [hri] at h
    simp [← h, RepoRsError.errKey, RepoRsError.isForeign]
  · rcases hb : w.headBranch with u | ob
    · simp [hri, hb] at h
      simp [← h, RepoRsError.errKey, RepoRsError.isForeign]
    · rcases ob with _ | b2
      · simp [hri, hb] at h
        simp [← h, RepoRsError.errKey, RepoRsError.isForeign]
      · simp [hri, hb] at h

/-- Errors of runGit are foreign or carry the key. -/
theorem runGit_err (r : Repo) (w : GitWorld) (cmd : GitCmd) (e : RepoRsError)
    (t : List GitCmd) (h : r.runGit w cmd = (.error e, t)) :
    e.isForeign = true ∨ e.errKey = some r.key := by
  unfold Repo.runGit at h
  rcases ho : w.outcomeFor cmd with _ | out
  · simp [ho] at h
    simp [← h.1, RepoRsError.errKey, RepoRsError.isForeign]
  · rcases hs : out.success
    · simp [ho, hs] at h
      simp [← h.1, RepoRsError.errKey, RepoRsError.isForeign]
    · simp [ho, hs] at h

/-- Errors of stepRun are foreign or carry the key. -/
theorem stepRun_err (r : Repo) (w : GitWorld) (cmd : GitCmd) (e : RepoRsError)
    (t : List GitCmd) (h : r.stepRun w cmd = (.error e, t)) :
    e.isForeign = true ∨ e.errKey = some r.key := by
  unfold Repo.stepRun at h
  rcases hg : r.runGit w cmd with ⟨res, tr⟩
  rw [hg] at h
  cases res with
  | error e2 =>
    simp at h
    exact h.1 ▸ runGit_err r w cmd e2 tr hg
  | ok u => simp at h

/-- Errors of a conditional stepRun are foreign or carry the key. -/
theorem condStep_err (r : Repo) (w : GitWorld) (cmd : GitCmd) (c : Prop) [Decidable c]
    (e : RepoRsError) (t : List GitCmd)
    (h : (if c then r.stepRun w cmd else ((.ok (), []) : Except RepoRsError Unit × List GitCmd))
      = (.error e, t)) :
    e.isForeign = true ∨ e.errKey = some r.key := by
  by_cases hc : c
  · rw [if_pos hc] at h
    exact stepRun_err r w cmd e t h
  · rw [if_neg hc] at h
    simp at h

/-- Errors of the stash step are foreign or carry the key. -/
theorem stashStep_err (r : Repo) (w : GitWorld) (dirty a : Bool)
    (e : RepoRsError) (t : List GitCmd)
    (h : (if dirty = true then
            if a = true then r.stepRun w .stash
            else (.error (.RepoDirty r.key), [])
          else ((.ok (), []) : Except RepoRsError Unit × List GitCmd)) = (.error e, t)) :
    e.isForeign = true ∨ e.errKey = some r.key := by
  rcases dirty
  · simp at h
  · rcases a
    · simp at h
      rw [← h.1]
      simp [RepoRsError.errKey, RepoRsError.isForeign]
    · simp only [if_pos] at h
      exact stepRun_err r w .stash e t (by simpa using h)

/-- Every error returned by update_repo is a wrapped foreign error or
carries the repository key. -/
theorem update_repo_err_aux (r : Repo) (w : GitWorld) (a : Bool) (e : RepoRsError)
    (t : List GitCmd) (h : Repo.update_repo r w a = (.error e, t)) :
    e.isForeign = true ∨ e.errKey = some r.key := by
  unfold Repo.update_repo at h
  repeat' split at h
  all_goals simp only [Prod.mk.injEq] at h
  all_goals obtain ⟨he, -⟩ := h
  all_goals cases he
  all_goals first
    | (apply Or.inr; apply validate_working_state_err r w; assumption)
    | (apply is_dirty_err r w; assumption)
    | (apply current_branch_err r w; assumption)
    | (apply stashStep_err r w; assumption)
    | (apply runGit_err r w; assumption)
    | (rename_i heq; exact condStep_err r w _ _ _ _ heq)

/-- The trace of one runGit call is exactly the command attempted. -/
theorem runGit_snd (r : Repo) (w : GitWorld) (cmd : GitCmd) :
    (r.runGit w cmd).2 = [cmd] := by
  unfold Repo.runGit
  rcases ho : w.outcomeFor cmd with _ | out <;> simp [ho]
  rcases hs : out.success <;> simp [hs]

/-- The trace of one stepRun call is exactly the command attempted. -/
theorem stepRun_snd (r : Repo) (w : GitWorld) (cmd : GitCmd) :
    (r.stepRun w cmd).2 = [cmd] := by
  unfold Repo.stepRun
  rcases hg : r.runGit w cmd with ⟨res, tr⟩
  have h2 := runGit_snd r w cmd
  rw [hg] at h2
  cases res <;> simpa using h2

/-- The trace of a conditional stepRun is empty, or the condition held and
the trace is the command. -/
theorem condStep_snd (r : Repo) (w : GitWorld) (cmd : GitCmd) (c : Prop) [Decidable c]
    (res : Except RepoRsError Unit) (t : List GitCmd)
    (h : (if c then r.stepRun w cmd else ((.ok (), []) : Except RepoRsError Unit × List GitCmd))
      = (res, t)) :
    t = [] ∨ (c ∧ t = [cmd]) := by
  by_cases hc : c
  · rw [if_pos hc] at h
    right
    refine ⟨hc, ?_⟩
    have h2 := congrArg Prod.snd h
    simpa [stepRun_snd] using h2.symm
  · rw [if_neg hc] at h
    left
    have h2 := congrArg Prod.snd h
    simpa using h2.symm

/-- The trace of the stash step is empty or the stash command. -/
theorem stashStep_snd (r : Repo) (w : GitWorld) (dirty a : Bool)
    (res : Except RepoRsError Unit) (t : List GitCmd)
    (h : (if dirty = true then
            if a = true then r.stepRun w .stash
            else (.error (.RepoDirty r.key), [])
          else ((.ok (), []) : Except RepoRsError Unit × List GitCmd)) = (res, t)) :
    t = [] ∨ t = [GitCmd.stash] := by
  rcases dirty
  · left
    have h2 := congrArg Prod.snd h
    simpa using h2.symm
  · rcases a
    · left
      have h2 := congrArg Prod.snd h
      simpa using h2.symm
    · right
      have h2 := congrArg Prod.snd h
      simp at h2
      rw [← h2, stepRun_snd]

/-- A successful current_branch report comes from the head shorthand. -/
theorem current_branch_head (r : Repo) (w : GitWorld) (ob : String)
    (h : r.current_branch w = .ok ob) : w.headBranch = .ok (some ob) := by
  unfold Repo.current_branch Repo.repository at h
  cases hri : w.repoInit <;> rw [hri] at h
  · simp at h
  · rcases hbr : w.headBranch with u | ob2 <;> rw [hbr] at h
    · simp at h
    · rcases ob2 with _ | b2
      · simp at h
      · simp at h
        rw [h]

/-- A stepRun whose command outcome succeeded returns ok with its trace. -/
theorem stepRun_of_succeeded (r : Repo) (w : GitWorld) (cmd : GitCmd)
    (h : (w.outcomeFor cmd).succeeded = true) :
    r.stepRun w cmd = (.ok (), [cmd]) := by
  unfold Repo.stepRun Repo.runGit
  rcases ho : w.outcomeFor cmd with _ | out <;> rw [ho] at h
  · cases h
  · simp only [RunOutcome.succeeded] at h
    simp [h]

/-- A stepRun whose spawn fails returns the io error with its trace. -/
theorem stepRun_ioErr (r : Repo) (w : GitWorld) (cmd : GitCmd)
    (h : w.outcomeFor cmd = .ioErr) :
    r.stepRun w cmd = (.error .IOError, [cmd]) := by
  unfold Repo.stepRun Repo.runGit
  rw [h]

/-- A stepRun whose process exited nonzero returns CommandFailed with its
trace. -/
theorem stepRun_failed (r : Repo) (w : GitWorld) (cmd : GitCmd) (out : Output)
    (h : w.outcomeFor cmd = .ran out) (hs : out.success = false) :
    r.stepRun w cmd = (.error (.CommandFailed r.key cmd out), [cmd]) := by
  unfold Repo.stepRun Repo.runGit
  rw [h]
  simp [hs]

/-- A runGit whose process succeeded returns its output with its trace. -/
theorem runGit_ran_ok (r : Repo) (w : GitWorld) (cmd : GitCmd) (out : Output)
    (h : w.outcomeFor cmd = .ran out) (hs : out.success = true) :
    r.runGit w cmd = (.ok out, [cmd]) := by
  unfold Repo.runGit
  rw [h]
  simp [hs]

/-- validate_working_state succeeds on an initialized clean-state repo. -/
theorem validate_ok (r : Repo) (w : GitWorld)
    (hri : w.repoInit = true) (hsc : w.stateClean = true) :
    r.validate_working_state w = .ok () := by
  unfold Repo.validate_working_state Repo.repository
  simp [hri, hsc]

/-- current_branch reports the head shorthand on an initialized repo. -/
theorem current_branch_ok (r : Repo) (w : GitWorld) (ob : String)
    (hri : w.repoInit = true) (hb : w.headBranch = .ok (some ob)) :
    r.current_branch w = .ok ob := by
  unfold Repo.current_branch Repo.repository
  simp [hri, hb]

/-- When the tracked branch is the currently checked-out branch, no
checkout command at all appears in the update trace. -/
theorem update_repo_no_checkout (r : Repo) (w : GitWorld) (a : Bool)
    (hb : w.headBranch = .ok (some r.branch)) (b2 : String) :
    GitCmd.checkout b2 ∉ (Repo.update_repo r w a).2 := by
  unfold Repo.update_repo
  split
  · simp
  · split
    · simp
    · split
      · rename_i e t heq
        rcases stashStep_snd r w _ a _ _ heq with h0 | h0 <;> simp [h0]
      · rename_i u t0 heq0
        rcases stashStep_snd r w _ a _ _ heq0 with h0 | h0 <;> (
          split
          · simp [h0]
          · rename_i ob hcb
            have hob : ob = r.branch := by
              have hh := current_branch_head r w ob hcb
              rw [hb] at hh
              simpa using hh.symm
            subst hob
            rw [if_neg (show ¬(r.branch ≠ r.branch) from fun hcon => hcon rfl)]
            dsimp only
            split
            · rename_i e t heq
              have h2 := runGit_snd r w .rebase
              rw [heq] at h2
              simp only [] at h2
              simp [h0, h2]
            · rename_i out2 t2 heq2
              have h2 := runGit_snd r w .rebase
              rw [heq2] at h2
              simp only [] at h2
              split
              · rename_i e t heq4
                rcases condStep_snd r w .stashPop _ _ _ heq4 with h4 | h4
                · simp [h0, h2, h4]
                · simp [h0, h2, h4.2]
              · rename_i u2 t4 heq4
                rcases condStep_snd r w .stashPop _ _ _ heq4 with h4 | h4
                · simp [h0, h2, h4]
                · simp [h0, h2, h4.2])

/-- A runGit whose spawn fails returns the io error with its trace. -/
theorem runGit_ioErr (r : Repo) (w : GitWorld) (cmd : GitCmd)
    (h : w.outcomeFor cmd = .ioErr) :
    r.runGit w cmd = (.error .IOError, [cmd]) := by
  unfold Repo.runGit
  rw [h]

/-- A runGit whose process exited nonzero returns CommandFailed. -/
theorem runGit_failed (r : Repo) (w : GitWorld) (cmd : GitCmd) (out : Output)
    (h : w.outcomeFor cmd = .ran out) (hs : out.success = false) :
    r.runGit w cmd = (.error (.CommandFailed r.key cmd out), [cmd]) := by
  unfold Repo.runGit
  rw [h]
  simp [hs]

/-- On the no-op switch path the update succeeds and returns the rebase
output, provided the rebase and every step actually taken succeed. -/
theorem update_repo_same_branch_success (r : Repo) (w : GitWorld) (a dirty : Bool)
    (out : Output)
    (hri : w.repoInit = true) (hsc : w.stateClean = true)
    (hb : w.headBranch = .ok (some r.branch))
    (hd : r.is_dirty w = .ok dirty)
    (hstash : dirty = true → a = true ∧ (w.stashRun).succeeded = true)
    (hreb : w.rebaseRun = .ran out) (hout : out.success = true)
    (hpop : dirty = true → (w.stashPopRun).succeeded = true) :
    (Repo.update_repo r w a).1 = .ok out := by
  have hv := validate_ok r w hri hsc
  have hcb := current_branch_ok r w r.branch hri hb
  have hrebase : r.runGit w .rebase = (.ok out, [.rebase]) :=
    runGit_ran_ok r w .rebase out hreb hout
  rcases dirty
  · simp [Repo.update_repo, hv, hd, hcb, hrebase]
  · obtain ⟨ha, hs⟩ := hstash rfl
    subst ha
    have hstashrun : r.stepRun w .stash = (.ok (), [.stash]) :=
      stepRun_of_succeeded r w .stash hs
    have hpoprun : r.stepRun w .stashPop = (.ok (), [.stashPop]) :=
      stepRun_of_succeeded r w .stashPop (hpop rfl)
    simp [Repo.update_repo, hv, hd, hcb, hrebase, hstashrun, hpoprun]

/-- When the target branch differs from the checked-out branch, the
restoring checkout appears in the trace exactly when the switch checkout
succeeded and the rebase succeeded. -/
theorem update_repo_restore_iff (r : Repo) (w : GitWorld) (a dirty : Bool) (ob : String)
    (hri : w.repoInit = true) (hsc : w.stateClean = true)
    (hb : w.headBranch = .ok (some ob)) (hne : r.branch ≠ ob)
    (hd : r.is_dirty w = .ok dirty)
    (hstash : dirty = true → a = true ∧ (w.stashRun).succeeded = true) :
    (GitCmd.checkout ob ∈ (Repo.update_repo r w a).2 ↔
      ((w.checkoutRun r.branch).succeeded = true ∧ (w.rebaseRun).succeeded = true)) := by
  have hv := validate_ok r w hri hsc
  have hcb := current_branch_ok r w ob hri hb
  have hstashrun : dirty = true → r.stepRun w .stash = (.ok (), [.stash]) := by
    intro hdt
    exact stepRun_of_succeeded r w .stash (hstash hdt).2
  have hl : ∀ p : Prop, ∀ inst : Decidable p, p →
      ∀ x y : Except RepoRsError Unit × List GitCmd, (if p then x else y) = x :=
    fun p inst hp x y => if_pos hp
  rcases hco : w.checkoutRun r.branch with _ | outc
  · have hswitch : r.stepRun w (.checkout r.branch)
        = (.error .IOError, [.checkout r.branch]) :=
      stepRun_ioErr r w (.checkout r.branch) hco
    rcases dirty
    · simp [Repo.update_repo, hv, hd, hcb, hne, hswitch, RunOutcome.succeeded, Ne.symm hne]
    · obtain ⟨ha, -⟩ := hstash rfl
      subst ha
      simp [Repo.update_repo, hv, hd, hcb, hne, hswitch, hstashrun rfl,
        RunOutcome.succeeded, Ne.symm hne]
  · rcases hsc2 : outc.success
    · have hswitch : r.stepRun w (.checkout r.branch)
          = (.error (.CommandFailed r.key (.checkout r.branch) outc), [.checkout r.branch]) :=
        stepRun_failed r w (.checkout r.branch) outc hco hsc2
      rcases dirty
      · simp [Repo.update_repo, hv, hd, hcb, hne, hswitch, hco, hsc2,
          RunOutcome.succeeded, Ne.symm hne]
      · obtain ⟨ha, -⟩ := hstash rfl
        subst ha
        simp [Repo.update_repo, hv, hd, hcb, hne, hswitch, hco, hsc2, hstashrun rfl,
          RunOutcome.succeeded, Ne.symm hne]
    · have hswitch : r.stepRun w (.checkout r.branch) = (.ok (), [.checkout r.branch]) := by
        apply stepRun_of_succeeded
        show (w.checkoutRun r.branch).succeeded = true
        rw [hco]
        exact hsc2
      rcases hrb : w.rebaseRun with _ | outr
      · have hrebase : r.runGit w .rebase = (.error .IOError, [.rebase]) :=
          runGit_ioErr r w .rebase hrb
        rcases dirty
        · simp [Repo.update_repo, hv, hd, hcb, hne, hswitch, hco, hsc2, hrebase, hrb,
            RunOutcome.succeeded, Ne.symm hne]
        · obtain ⟨ha, -⟩ := hstash rfl
          subst ha
          simp [Repo.update_repo, hv, hd, hcb, hne, hswitch, hco, hsc2, hrebase, hrb,
            hstashrun rfl, RunOutcome.succeeded, Ne.symm hne]
      · rcases hrs : outr.success
        · have hrebase : r.runGit w .rebase
              = (.error (.CommandFailed r.key .rebase outr), [.rebase]) :=
            runGit_failed r w .rebase outr hrb hrs
          rcases dirty
          · simp [Repo.update_repo, hv, hd, hcb, hne, hswitch, hco, hsc2, hrebase, hrb, hrs,
              RunOutcome.succeeded, Ne.symm hne]
          · obtain ⟨ha, -⟩ := hstash rfl
            subst ha
            simp [Repo.update_repo, hv, hd, hcb, hne, hswitch, hco, hsc2, hrebase, hrb, hrs,
              hstashrun rfl, RunOutcome.succeeded, Ne.symm hne]
        · have hrebase : r.runGit w .rebase = (.ok outr, [.rebase]) :=
            runGit_ran_ok r w .rebase outr hrb hrs
          rcases hres : r.stepRun w (.checkout ob) with ⟨res3, t3⟩
          have ht3 : t3 = [.checkout ob] := by
            have h3 := stepRun_snd r w (.checkout ob)
            rw [hres] at h3
            exact h3
          subst ht3
          rcases hres4 : r.stepRun w .stashPop with ⟨res4, t4⟩
          have ht4 : t4 = [.stashPop] := by
            have h4 := stepRun_snd r w .stashPop
            rw [hres4] at h4
            exact h4
          subst ht4
          rcases dirty
          · rcases res3 with e3 | u3 <;>
              simp [Repo.update_repo, hv, hd, hcb, hne, hswitch, hco, hsc2, hrebase, hrb,
                hrs, hres, RunOutcome.succeeded, Ne.symm hne]
          · obtain ⟨ha, -⟩ := hstash rfl
            subst ha
            rcases res3 with e3 | u3 <;> rcases res4 with e4 | u4 <;>
              simp [Repo.update_repo, hv, hd, hcb, hne, hswitch, hco, hsc2, hrebase, hrb,
                hrs, hres, hres4, hstashrun rfl, RunOutcome.succeeded, Ne.symm hne]

/-- Branch of the repo produced by a successful build is the branch held by
the builder, untouched by build. -/
theorem build_branch (b : RepoBuilder) (w : BuildWorld) (rp : Repo)
    (h : b.build w = .ok rp) : rp.branch = b.branch := by
  unfold RepoBuilder.build at h
  split at h
  · cases h
  · split at h
    · cases h
    · split at h
      · cases h; rfl
      · split at h
        · cases h
        · split at h
          · cases h; rfl
          · cases h

/-- Results of update_repo agree on two worlds on which every primitive
the machine consults agrees. -/
theorem update_repo_congr (r : Repo) (w w2 : GitWorld) (a : Bool)
    (h1 : r.validate_working_state w = r.validate_working_state w2)
    (h2 : r.is_dirty w = r.is_dirty w2)
    (h3 : r.current_branch w = r.current_branch w2)
    (h4 : ∀ cmd, r.runGit w cmd = r.runGit w2 cmd) :
    Repo.update_repo r w a = Repo.update_repo r w2 a := by
  have h5 : ∀ cmd, r.stepRun w cmd = r.stepRun w2 cmd := by
    intro cmd
    unfold Repo.stepRun
    rw [h4]
  unfold Repo.update_repo
  simp only [h1, h2, h3, h4, h5]

/-- C1 (confirmed): after registry.add(a), registry.contains(b) is true for
every descriptor b matching a by key or by path, whatever the other
fields hold and whatever the registry held before. -/
theorem c1_contains_after_add (c : Config) (a b : Repo)
    (h : a.key = b.key ∨ a.path = b.path) :
    Config.contains (Config.add c a) b = true := by
  have he : Repo.eq a b = true := by
    unfold Repo.eq
    rcases h with h | h <;> simp [h]
  simp [Config.contains, Config.add, List.any_cons, he]

/-- Witness for C1: key-only match on an empty registry. -/
theorem c1_witness :
    (Repo.key ⟨"foo", "bar", "r", "b"⟩ = Repo.key ⟨"foo", "x", "y", "z"⟩ ∨
      Repo.path ⟨"foo", "bar", "r", "b"⟩ = Repo.path ⟨"foo", "x", "y", "z"⟩) ∧
    Config.contains (Config.add [] ⟨"foo", "bar", "r", "b"⟩) ⟨"foo", "x", "y", "z"⟩ = true :=
  ⟨Or.inl rfl, c1_contains_after_add [] _ _ (Or.inl rfl)⟩

/-- C2 (confirmed): on a dirty repository with stashing not allowed,
update_repo fails with RepoDirty and issues no git subcommand at all: the
trace of spawned subcommands is empty, so no stash, no checkout, no rebase
and no stash pop happen, and the machine returns before the branch
lookup. -/
theorem c2_stash_gating (r : Repo) (w : GitWorld)
    (hv : r.validate_working_state w = .ok ())
    (hd : r.is_dirty w = .ok true) :
    Repo.update_repo r w false = (.error (.RepoDirty r.key), []) := by
  unfold Repo.update_repo
  rw [hv, hd]
  rfl

/-- Witness for C2: the concrete dirty world. -/
theorem c2_witness :
    Repo.is_dirty rK wDirty = .ok true ∧
    Repo.update_repo rK wDirty false = (.error (.RepoDirty "k"), []) :=
  ⟨by decide, c2_stash_gating rK wDirty (by decide) (by decide)⟩

/-- Counterexample for C3: when the head lookup fails, update_repo returns
the wrapped git error, which carries no repository key. -/
theorem c3_counterexample :
    Repo.update_repo rK wHeadFail true = (.error .GitError, []) ∧
    RepoRsError.errKey .GitError = none :=
  ⟨by decide, rfl⟩

/-- C3 (corrected): every error returned by update_repo either carries the
repository key or is a wrapped foreign error (a git2 or io error
propagated by the question-mark operator), which carries none. -/
theorem c3_error_attribution (r : Repo) (w : GitWorld) (a : Bool)
    (e : RepoRsError) (t : List GitCmd)
    (h : Repo.update_repo r w a = (.error e, t)) :
    e.errKey = some r.key ∨ e.isForeign = true :=
  (update_repo_err_aux r w a e t h).symm

/-- Witness for C3: the RepoDirty failure carries the key. -/
theorem c3_witness :
    RepoRsError.errKey (.RepoDirty "k") = some "k" ∨
    RepoRsError.isForeign (.RepoDirty "k") = true :=
  c3_error_attribution rK wDirty false (.RepoDirty "k") [] (by decide)

/-- Counterexample for C4: with previous persisted content [1, 2, 3], a
write failing after zero bytes leaves the destination truncated to the
empty file: a partial file has replaced the previous content. -/
theorem c4_counterexample :
    (Config.save saveFailWorld (some [1, 2, 3])).1 = .error .IOError ∧
    (Config.save saveFailWorld (some [1, 2, 3])).2 = some [] ∧
    some ([] : List Nat) ≠ some [1, 2, 3] := by
  decide

/-- C4 (corrected): save is not atomic; it truncates the destination and
writes in place, so on failure the destination either still holds the old
content (only when serialization or the create failed) or holds a prefix
of the new serialization (possibly empty). -/
theorem c4_amended (w : SaveWorld) (dest : Option (List Nat)) :
    (Config.save w dest).1 = .ok () ∨ (Config.save w dest).2 = dest ∨
    ∃ json n, w.serialized = some json ∧ (Config.save w dest).2 = some (json.take n) := by
  unfold Config.save
  rcases hs : w.serialized with _ | json
  · simp
  · rcases hc : w.createOk with _ | _
    · simp
    · rcases hw : w.writeFailAt with _ | n
      · simp
      · right
        right
        exact ⟨json, n, rfl, by simp⟩

/-- Counterexample for C5: on the registry that iterates zeta before
alpha, pull spawns the zeta task first, not in ascending key order. -/
theorem c5_counterexample :
    (pullTasks cfgZA false).map PullTask.key = ["zeta", "alpha"] ∧
    (Config.repos_sorted cfgZA).map Prod.fst = ["alpha", "zeta"] ∧
    (pullTasks cfgZA false).map PullTask.key ≠ (Config.repos_sorted cfgZA).map Prod.fst := by
  decide

/-- C5 (corrected): each batch operation spawns exactly one task per
registry entry, in the iteration order of the map (a permutation of the
sorted key order), not in ascending sorted key order: the code iterates
config.repos directly without sorting. -/
theorem c5_amended (c : Config) (a all2 : Bool) (prog : String) (args : List String) :
    (pullTasks c a).map PullTask.key = c.map Prod.fst ∧
    (statusTasks c all2).map StatusTask.key = c.map Prod.fst ∧
    (runTasks c prog args).map RunTask.key = c.map Prod.fst ∧
    ((pullTasks c a).map PullTask.key).Perm ((Config.repos_sorted c).map Prod.fst) := by
  refine ⟨?_, ?_, ?_, ?_⟩
  · simp [pullTasks]
  · simp [statusTasks]
  · simp [runTasks]
  · simp only [pullTasks, List.map_map]
    have hperm : ((Config.repos_sorted c).map Prod.fst).Perm (c.map Prod.fst) :=
      (List.perm_insertionSort keyLe c).map Prod.fst
    refine List.Perm.symm ?_
    simpa using hperm

/-- C6 (confirmed): on any registry with distinct keys (the HashMap
invariant), the sorted listing is strictly ascending in the byte-wise key
order and is a permutation of the registry entries, so listing reads but
never changes the registry. -/
theorem c6_sorted_listing (c : Config) (hnd : (c.map Prod.fst).Nodup) :
    List.Pairwise keyLt (Config.repos_sorted c) ∧ (Config.repos_sorted c).Perm c := by
  have hperm : (Config.repos_sorted c).Perm c := List.perm_insertionSort keyLe c
  refine ⟨?_, hperm⟩
  have hsorted : List.Pairwise keyLe (Config.repos_sorted c) :=
    List.sorted_insertionSort keyLe c
  have hndSorted : ((Config.repos_sorted c).map Prod.fst).Nodup :=
    ((hperm.map Prod.fst).nodup_iff).mpr hnd
  have hne : List.Pairwise (fun a b : String × Repo => a.1 ≠ b.1) (Config.repos_sorted c) :=
    (List.pairwise_map).mp hndSorted
  refine (hsorted.and hne).imp ?_
  rintro a b ⟨hle, hne1⟩
  refine lt_of_le_of_ne hle ?_
  intro hdata
  apply hne1
  cases ha : a.1
  cases hb : b.1
  simp_all

/-- Witness for C6: inserting alpha then zeta, listing yields alpha before
zeta. -/
theorem c6_witness :
    ((cfgZA.map Prod.fst).Nodup) ∧
    (List.Pairwise keyLt (Config.repos_sorted cfgZA) ∧ (Config.repos_sorted cfgZA).Perm cfgZA) :=
  ⟨by decide, c6_sorted_listing cfgZA (by decide)⟩

/-- Counterexample for C7: first, a same-branch dirty run whose rebase step
succeeds but whose stash pop fails, so the run does not succeed although
the rebase step succeeded; second, a run in which the switch to the target
branch happened but the rebase failed, so no restoring checkout to the
original branch dev follows the switch. -/
theorem c7_counterexample :
    (wPopFail.headBranch = .ok (some rK.branch) ∧
      wPopFail.rebaseRun = .ran okOut ∧ okOut.success = true ∧
      (Repo.update_repo rK wPopFail true).1 =
        .error (.CommandFailed "k" .stashPop failOut)) ∧
    (GitCmd.checkout "main" ∈ (Repo.update_repo rK wRebaseFail false).2 ∧
      GitCmd.checkout "dev" ∉ (Repo.update_repo rK wRebaseFail false).2) := by
  refine ⟨⟨by decide, by decide, by decide, by decide⟩, by decide, by decide⟩

/-- C7 (corrected): when the checked-out branch equals the target branch
the machine performs zero checkout calls, and the run succeeds whenever
the rebase step succeeds provided every step actually taken (stash and
stash pop, when the tree was dirty) also succeeds; when the branches
differ, the restoring checkout to the original branch happens exactly when
the switch checkout succeeded and the rebase succeeded. -/
theorem c7_branch_restore (r : Repo) (w : GitWorld) (a : Bool) :
    (w.headBranch = .ok (some r.branch) →
      ∀ b2, GitCmd.checkout b2 ∉ (Repo.update_repo r w a).2)
    ∧ (∀ dirty out, w.repoInit = true → w.stateClean = true →
        w.headBranch = .ok (some r.branch) →
        r.is_dirty w = .ok dirty →
        (dirty = true → a = true ∧ (w.stashRun).succeeded = true) →
        w.rebaseRun = .ran out → out.success = true →
        (dirty = true → (w.stashPopRun).succeeded = true) →
        (Repo.update_repo r w a).1 = .ok out)
    ∧ (∀ dirty ob, w.repoInit = true → w.stateClean = true →
        w.headBranch = .ok (some ob) → r.branch ≠ ob →
        r.is_dirty w = .ok dirty →
        (dirty = true → a = true ∧ (w.stashRun).succeeded = true) →
        (GitCmd.checkout ob ∈ (Repo.update_repo r w a).2 ↔
          ((w.checkoutRun r.branch).succeeded = true ∧ (w.rebaseRun).succeeded = true))) :=
  ⟨fun hb b2 => update_repo_no_checkout r w a hb b2,
   fun dirty out hri hsc hb hd hstash hreb hout hpop =>
     update_repo_same_branch_success r w a dirty out hri hsc hb hd hstash hreb hout hpop,
   fun dirty ob hri hsc hb hne hd hstash =>
     update_repo_restore_iff r w a dirty ob hri hsc hb hne hd hstash⟩

/-- Witness for C7: the clean same-branch world succeeds with the rebase
output. -/
theorem c7_witness : (Repo.update_repo rK wClean false).1 = .ok okOut :=
  (c7_branch_restore rK wClean false).2.1 false okOut rfl rfl rfl (by decide)
    (fun h => nomatch h) rfl rfl (fun h => nomatch h)

/-- Counterexample for C8: with no caller-supplied branch, the built
descriptor tracks the literal master, not the repository's configured
default branch (main here) nor the checked-out branch (dev here). -/
theorem c8_counterexample :
    track_build "/r/a" none none none wBuildMain = .ok ⟨"a", "/r/a", "origin", "master"⟩ ∧
    ("master" : String) ≠ wBuildMain.configuredDefaultBranch ∧
    ("master" : String) ≠ wBuildMain.currentBranch := by
  refine ⟨by decide, by decide, by decide⟩

/-- C8 (corrected): with no caller-supplied branch the built descriptor's
branch is the literal master (the builder default, also the clap default),
not the repository's configured default; a caller-supplied branch is taken
verbatim and never overridden by the currently checked-out branch. -/
theorem c8_amended (path : String) (keyOpt remoteOpt : Option String) (br : String)
    (w : BuildWorld) (rp rp2 : Repo) :
    (track_build path keyOpt remoteOpt none w = .ok rp → rp.branch = "master") ∧
    (track_build path keyOpt remoteOpt (some br) w = .ok rp2 → rp2.branch = br) := by
  constructor
  · intro h
    unfold track_build at h
    simpa [RepoBuilder.setBranch] using build_branch _ w rp h
  · intro h
    unfold track_build at h
    simpa [RepoBuilder.setBranch] using build_branch _ w rp2 h

/-- Witness for C8: a caller-supplied branch feature survives the build
even though the checked-out branch is dev. -/
theorem c8_witness :
    track_build "/r/a" none none (some "feature") wBuildMain
        = .ok ⟨"a", "/r/a", "origin", "feature"⟩ ∧
    (Repo.branch ⟨"a", "/r/a", "origin", "feature"⟩ = "feature") :=
  ⟨by decide, (c8_amended "/r/a" none none "feature" wBuildMain
      ⟨"a", "/r/a", "origin", "master"⟩ ⟨"a", "/r/a", "origin", "feature"⟩).2 (by decide)⟩

/-- C9 (confirmed): when the index-to-workdir diff fails, is_dirty reports
clean instead of an error, and update_repo behaves exactly as on the same
world whose diff reports zero deltas: no stash and no RepoDirty even with
stashing disallowed. -/
theorem c9_diff_failure_treated_clean (r : Repo) (w : GitWorld)
    (hri : w.repoInit = true) (hx : w.indexOk = true) (hdd : w.diffDeltas = none) :
    r.is_dirty w = .ok false ∧
    ∀ a, Repo.update_repo r w a = Repo.update_repo r { w with diffDeltas := some 0 } a := by
  have hdirty : r.is_dirty w = .ok false := by
    unfold Repo.is_dirty Repo.repository
    simp [hri, hx, hdd]
  refine ⟨hdirty, fun a => update_repo_congr r w _ a rfl ?_ rfl (fun _ => rfl)⟩
  rw [hdirty]
  unfold Repo.is_dirty Repo.repository
  simp [hri, hx]

/-- Witness for C9: the concrete diff-failure world. -/
theorem c9_witness :
    Repo.is_dirty rK wDiffErr = .ok false ∧
    Repo.update_repo rK wDiffErr true
      = Repo.update_repo rK { wDiffErr with diffDeltas := some 0 } true :=
  ⟨(c9_diff_failure_treated_clean rK wDiffErr rfl rfl rfl).1,
   (c9_diff_failure_treated_clean rK wDiffErr rfl rfl rfl).2 true⟩

/-- C10 (confirmed): collect_output panics on the nonempty non-UTF-8
stdout byte 0xFF, and produces no output block whenever both captured
streams are empty. -/
theorem c10_collect_output :
    collect_output [] ⟨[255], [], true⟩ = .error .invalidUtf8 ∧
    ∀ (header : List Nat) (out : Output), out.stdout = [] → out.stderr = [] →
      collect_output header out = .ok none := by
  constructor
  · decide
  · intro header out h1 h2
    simp [collect_output, h1, h2]

/-- Witness for C10: an empty-output execution yields no block. -/
theorem c10_witness : collect_output [7] ⟨[], [], false⟩ = .ok none :=
  c10_collect_output.2 [7] ⟨[], [], false⟩ rfl rfl
